import Mathlib

/-!
Shallow embedding of `snapcontrol.py` (SnapControl, a Drive-Snapshot backup
wrapper) and proofs about its backup-cycle lifecycle engine.

Modelling conventions:
* File systems are finite lists of files; a file is its name, an mtime and a
  size.  Times (`datetime` values in Python) are represented by natural
  numbers; a timestamp parsed from a file name is mapped into the same axis
  by a strictly monotone, injective mixed-radix encoding of
  (year, month, day, hour, minute, second), so that all order comparisons
  performed by the Python code are preserved.
* Python floats appear only in `get_disk_space_info`
  (`last_cycle_size * (1 + percent / 100)` followed by `int(...)`); they are
  idealised as exact rational arithmetic with truncation (`Int.floor` on
  non-negative values).  For the byte counts appearing in the claims the
  float computation is exact, so the idealisation agrees with the source.
* The external imaging tool (`snapshot.exe`) is an oracle
  `exec : BackupType → Int` returning the process exit code; per its
  contract, exit code 0 means the artifact (and, for full backups, the
  companion hash file) exists afterwards.
* Fallible code paths (the `TypeError` raised by `Path(None)` in
  `run_backup`) are modelled with `Option`: `none` means the exception
  propagates, so no result is produced, no history entry is appended and the
  state file is not rewritten.
-/

namespace SnapControl

/-! ### Character and string helpers (structural recursion on `List Char`) -/

/-- Numeric value of a decimal digit character. -/
def dVal (c : Char) : Nat := c.toNat - 48

/-- Decimal digit test (`0`-`9`). -/
def isDigitC (c : Char) : Bool := 48 ≤ c.toNat && c.toNat ≤ 57

/-- Contiguous-substring test: does `pat` occur inside the second list? -/
def hasSubChars (pat : List Char) : List Char → Bool
  | [] => pat.isEmpty
  | c :: rest => pat.isPrefixOf (c :: rest) || hasSubChars pat rest

/-- Byte-wise `≤` on character lists (the order used by Python `sorted` on
file names within one directory). -/
def charListLe : List Char → List Char → Bool
  | [], _ => true
  | _ :: _, [] => false
  | a :: as, b :: bs =>
    if a.toNat < b.toNat then true
    else if b.toNat < a.toNat then false
    else charListLe as bs

/-- Python `str.split(sep)` with a one-character separator: no collapsing of
adjacent separators, `""` splits to `[""]`. -/
def splitChars (sep : Char) : List Char → List (List Char)
  | [] => [[]]
  | c :: rest =>
    match splitChars sep rest with
    | [] => [[]]
    | group :: groups =>
      if c = sep then [] :: group :: groups else (c :: group) :: groups

/-- Splits `cs` at its last `'.'` into `(before, after)`; `none` if there is
no dot. -/
def lastDotSplit : List Char → Option (List Char × List Char)
  | [] => none
  | c :: rest =>
    match lastDotSplit rest with
    | some (b, a) => some (c :: b, a)
    | none => if c = '.' then some ([], rest) else none

/-- Python `pathlib.PurePath.stem`: the name with its last suffix removed;
a leading or trailing dot does not count as a suffix separator. -/
def fileStemChars (cs : List Char) : List Char :=
  match lastDotSplit cs with
  | some (before, after) =>
    if before.isEmpty || after.isEmpty then cs else before
  | none => cs

/-- `Path.stem` on a `String` file name. -/
def fileStem (s : String) : String := ⟨fileStemChars s.data⟩

/-! ### `datetime.strptime(ts, "%Y%m%d_%HM%S")` model

Python's `_strptime` compiles the format to a regex; each directive is an
ordered alternation that is tried with backtracking.  The functions below
return the candidate (value, remaining input) pairs in the engine's
backtracking priority order.  After a successful regex match the
`datetime(...)` constructor validates the calendar (day of month, second
≤ 59, year ≥ 1); a validation failure raises `ValueError`, with no further
regex backtracking — exactly as modelled in `parseDateTime`. -/

/-- `%m` candidates, regex `1[0-2]|0[1-9]|[1-9]`. -/
def monthCands : List Char → List (Nat × List Char)
  | c1 :: c2 :: rest =>
    (if c1 == '1' && isDigitC c2 && dVal c2 ≤ 2 then [(10 + dVal c2, rest)] else [])
    ++ (if c1 == '0' && isDigitC c2 && 1 ≤ dVal c2 then [(dVal c2, rest)] else [])
    ++ (if isDigitC c1 && 1 ≤ dVal c1 then [(dVal c1, c2 :: rest)] else [])
  | [c1] => if isDigitC c1 && 1 ≤ dVal c1 then [(dVal c1, [])] else []
  | [] => []

/-- `%d` candidates, regex `3[01]|[12]\d|0[1-9]|[1-9]`. -/
def dayCands : List Char → List (Nat × List Char)
  | c1 :: c2 :: rest =>
    (if c1 == '3' && (c2 == '0' || c2 == '1') then [(30 + dVal c2, rest)] else [])
    ++ (if (c1 == '1' || c1 == '2') && isDigitC c2 then [(10 * dVal c1 + dVal c2, rest)] else [])
    ++ (if c1 == '0' && isDigitC c2 && 1 ≤ dVal c2 then [(dVal c2, rest)] else [])
    ++ (if isDigitC c1 && 1 ≤ dVal c1 then [(dVal c1, c2 :: rest)] else [])
  | [c1] => if isDigitC c1 && 1 ≤ dVal c1 then [(dVal c1, [])] else []
  | [] => []

/-- `%H` candidates, regex `2[0-3]|[0-1]\d|\d`. -/
def hourCands : List Char → List (Nat × List Char)
  | c1 :: c2 :: rest =>
    (if c1 == '2' && isDigitC c2 && dVal c2 ≤ 3 then [(20 + dVal c2, rest)] else [])
    ++ (if (c1 == '0' || c1 == '1') && isDigitC c2 then [(10 * dVal c1 + dVal c2, rest)] else [])
    ++ (if isDigitC c1 then [(dVal c1, c2 :: rest)] else [])
  | [c1] => if isDigitC c1 then [(dVal c1, [])] else []
  | [] => []

/-- `%M` candidates, regex `[0-5]\d|\d`. -/
def minuteCands : List Char → List (Nat × List Char)
  | c1 :: c2 :: rest =>
    (if isDigitC c1 && dVal c1 ≤ 5 && isDigitC c2 then [(10 * dVal c1 + dVal c2, rest)] else [])
    ++ (if isDigitC c1 then [(dVal c1, c2 :: rest)] else [])
  | [c1] => if isDigitC c1 then [(dVal c1, [])] else []
  | [] => []

/-- `%S` candidates, regex `6[0-1]|[0-5]\d|\d` (leap seconds pass the regex
but are rejected later by the `datetime` constructor). -/
def secondCands : List Char → List (Nat × List Char)
  | c1 :: c2 :: rest =>
    (if c1 == '6' && (c2 == '0' || c2 == '1') then [(60 + dVal c2, rest)] else [])
    ++ (if isDigitC c1 && dVal c1 ≤ 5 && isDigitC c2 then [(10 * dVal c1 + dVal c2, rest)] else [])
    ++ (if isDigitC c1 then [(dVal c1, c2 :: rest)] else [])
  | [c1] => if isDigitC c1 then [(dVal c1, [])] else []
  | [] => []

/-- First success of `f` over `xs`, in order: the regex engine's
backtracking search. -/
def firstSome {α β : Type} : List α → (α → Option β) → Option β
  | [], _ => none
  | x :: xs, f =>
    match f x with
    | some b => some b
    | none => firstSome xs f

/-- Match `%m%d` against exactly `cs` (the date part after `%Y`; the
following character in the combined string is the literal `'_'`, which no
digit class matches, so the month/day alternatives must consume everything). -/
def parseMD (cs : List Char) : Option (Nat × Nat) :=
  firstSome (monthCands cs) fun mc =>
    firstSome (dayCands mc.2) fun dc =>
      if dc.2.isEmpty then some (mc.1, dc.1) else none

/-- Match `%H%M%S` against exactly `cs` (strptime rejects unconverted
trailing data). -/
def parseHMS (cs : List Char) : Option (Nat × Nat × Nat) :=
  firstSome (hourCands cs) fun hc =>
    firstSome (minuteCands hc.2) fun mc =>
      firstSome (secondCands mc.2) fun sc =>
        if sc.2.isEmpty then some (hc.1, mc.1, sc.1) else none

/-- Gregorian leap-year rule used by `datetime`. -/
def isLeapYear (y : Nat) : Bool := (y % 4 == 0 && y % 100 != 0) || y % 400 == 0

/-- Days in a month, as validated by the `datetime` constructor. -/
def daysInMonth (y m : Nat) : Nat :=
  if m == 2 then (if isLeapYear y then 29 else 28)
  else if m == 4 || m == 6 || m == 9 || m == 11 then 30
  else 31

/-- Strictly monotone, injective mixed-radix encoding of a datetime onto the
`Nat` time axis (month < 13, day < 32, hour < 24, minute < 60, second < 60). -/
def encodeDateTime (y m d h mi s : Nat) : Nat :=
  ((((y * 13 + m) * 32 + d) * 24 + h) * 60 + mi) * 60 + s

/-- `datetime.strptime(dateS ++ "_" ++ timeS, "%Y%m%d_%H%M%S")`, where the
two parts contain no underscore (they come from `str.split("_")`):
`%Y` is exactly four digits, then `%m%d` must consume the rest of the date
part and `%H%M%S` the whole time part; finally the `datetime` constructor
validates year ≥ 1, day ≤ days-in-month and second ≤ 59. -/
def parseDateTime (dateCs timeCs : List Char) : Option Nat :=
  match dateCs with
  | y1 :: y2 :: y3 :: y4 :: rest =>
    if isDigitC y1 && isDigitC y2 && isDigitC y3 && isDigitC y4 then
      let y := ((dVal y1 * 10 + dVal y2) * 10 + dVal y3) * 10 + dVal y4
      match parseMD rest with
      | some md =>
        match parseHMS timeCs with
        | some hms =>
          if 1 ≤ y && 1 ≤ md.2 && md.2 ≤ daysInMonth y md.1 && hms.2.2 ≤ 59 then
            some (encodeDateTime y md.1 md.2 hms.1 hms.2.1 hms.2.2)
          else none
        | none => none
      | none => none
    else none
  | _ => none

/-! ### File-system model -/

/-- A file on the target disk: name within its directory, last-modified time
(`st_mtime`, on the encoded time axis) and size in bytes (`st_size`). -/
structure MFile where
  name : String
  mtime : Nat
  size : Nat
deriving DecidableEq

/-- The per-source backup directory: the `full/` and `differential/`
subdirectories, each a finite list of files (in directory-scan order). -/
structure FS where
  fullDir : List MFile
  diffDir : List MFile
deriving DecidableEq

/-- Lookup of a directory by tag: `true` is `full/`, `false` is
`differential/`. -/
def dirOf (fs : FS) (inFull : Bool) : List MFile :=
  if inFull then fs.fullDir else fs.diffDir

/-- `Path.exists()` for a file name inside one of the two directories. -/
def fileExists (fs : FS) (inFull : Bool) (n : String) : Bool :=
  (dirOf fs inFull).any fun f => f.name == n

/-- `Path.stat().st_size` (0 if absent; only queried on existing files). -/
def fileSize (fs : FS) (inFull : Bool) (n : String) : Nat :=
  match (dirOf fs inFull).find? (fun f => f.name == n) with
  | some f => f.size
  | none => 0

/-- `Path.unlink()`: remove the named file from its directory. -/
def removeFile (fs : FS) (inFull : Bool) (n : String) : FS :=
  if inFull then { fs with fullDir := fs.fullDir.filter fun f => !(f.name == n) }
  else { fs with diffDir := fs.diffDir.filter fun f => !(f.name == n) }

/-- `parent.glob(f"{stem}.*")`: files whose name starts with `stem` followed
by a dot (`*` matches any tail, including further dots). -/
def stemGlobFiles (dir : List MFile) (stem : String) : List MFile :=
  dir.filter fun f => (stem.data ++ ['.']).isPrefixOf f.name.data

/-- `full_dir.glob("*_full_*.sna")`: name contains `_full_` and ends in
`.sna` (both wildcards may be empty; `_full_` contains no dot, so it can
never overlap the final `.sna`). -/
def isFullArtifact (name : String) : Bool :=
  hasSubChars "_full_".data name.data && (".sna".data).isSuffixOf name.data

/-- `diff_dir.glob("*_diff_*.sna")`. -/
def isDiffArtifact (name : String) : Bool :=
  hasSubChars "_diff_".data name.data && (".sna".data).isSuffixOf name.data

/-! ### `BackupManager.get_backup_cycles` -/

/-- Timestamp embedded in a full-backup file name: split the stem on `_`;
with at least four parts, `strptime(parts[2] + "_" + parts[3],
"%Y%m%d_%H%M%S")`; `none` on a `ValueError` or fewer parts. -/
def nameTimestamp (name : String) : Option Nat :=
  match splitChars '_' (fileStemChars name.data) with
  | _ :: _ :: p2 :: p3 :: _ => parseDateTime p2 p3
  | _ => none

/-- Cycle timestamp of a full-backup artifact: filename-embedded timestamp
when parseable, otherwise the file's own mtime
(`datetime.fromtimestamp(full_backup.stat().st_mtime)`). -/
def cycleTimestamp (f : MFile) : Nat :=
  match nameTimestamp f.name with
  | some t => t
  | none => f.mtime

/-- `BackupCycle`: one full backup plus its differentials, as reconstructed
from the directory scan. -/
structure BackupCycle where
  fullBackup : String
  hashFile : Option String
  differentials : List String
  timestamp : Nat
  totalSizeBytes : Nat
deriving DecidableEq

/-- Name-ascending sort, modelling `sorted(dir.glob(...))` (a stable sort on
the path string; within one directory that is the file name). -/
def sortByName (l : List MFile) : List MFile :=
  List.insertionSort (fun a b => charListLe a.name.data b.name.data = true) l

/-- The sorted list of full-backup artifacts (`full_backups` in the source). -/
def fullArtifacts (fs : FS) : List MFile :=
  sortByName (fs.fullDir.filter fun f => isFullArtifact f.name)

/-- The sorted list of differential artifacts. -/
def diffArtifacts (fs : FS) : List MFile :=
  sortByName (fs.diffDir.filter fun f => isDiffArtifact f.name)

/-- The source's per-differential membership test for the cycle of full
backup `fb` with cycle timestamp `ts`: `diff_time >= timestamp`, and no
*other* full backup whose **mtime** lies in `(timestamp, diff_time]`
(note the asymmetry: the owner is compared by its parsed cycle timestamp,
the other full backups by their raw mtime). -/
def diffBelongs (fulls : List MFile) (fb : MFile) (ts : Nat) (d : MFile) : Bool :=
  decide (ts ≤ d.mtime) &&
    fulls.all fun other =>
      other.name == fb.name ||
        !(decide (ts < other.mtime) && decide (other.mtime ≤ d.mtime))

/-- `BackupCycle.get_all_files`: the stem-glob of the full artifact (which
also matches the companion `.hsh` file), then the hash file again if it
exists, then each differential's stem-glob.  Entries are tagged with the
directory they live in. -/
def getAllFiles (fs : FS) (c : BackupCycle) : List (Bool × String) :=
  ((stemGlobFiles fs.fullDir (fileStem c.fullBackup)).map fun f => (true, f.name))
  ++ (match c.hashFile with
      | some h => if fileExists fs true h then [(true, h)] else []
      | none => [])
  ++ ((c.differentials.map fun dn =>
        (stemGlobFiles fs.diffDir (fileStem dn)).map fun f => (false, f.name)).flatten)

/-- Total size of a cycle as computed in `get_backup_cycles`: for every
entry of `get_all_files` that exists, add its size (duplicates in the list
are added twice). -/
def cycleFilesSize (fs : FS) (c : BackupCycle) : Nat :=
  (getAllFiles fs c).foldl
    (fun acc e => if fileExists fs e.1 e.2 then acc + fileSize fs e.1 e.2 else acc) 0

/-- Build the cycle record for one full backup, as in the body of the
`for full_backup in full_backups` loop. -/
def mkCycle (fs : FS) (fulls : List MFile) (fb : MFile) : BackupCycle :=
  let ts := cycleTimestamp fb
  let hashName : String := ⟨fileStemChars fb.name.data ++ ".hsh".data⟩
  let base : BackupCycle :=
    { fullBackup := fb.name
      hashFile := if fileExists fs true hashName then some hashName else none
      differentials :=
        ((diffArtifacts fs).filter fun d => diffBelongs fulls fb ts d).map fun d => d.name
      timestamp := ts
      totalSizeBytes := 0 }
  { base with totalSizeBytes := cycleFilesSize fs base }

/-- `BackupManager.get_backup_cycles`: one cycle per full-backup artifact,
sorted ascending by cycle timestamp. -/
def getBackupCycles (fs : FS) : List BackupCycle :=
  List.insertionSort (fun a b => a.timestamp ≤ b.timestamp)
    ((fullArtifacts fs).map (mkCycle fs (fullArtifacts fs)))

/-! ### `BackupManager.cleanup_old_cycles` -/

/-- The retention split `(cycles_to_delete, cycles_to_keep)`.  Mirrors the
Python slicing: for `len(cycles) ≤ keep` nothing is deleted; otherwise
`cycles[:-keep]` / `cycles[-keep:]` — and for `keep = 0` Python's
`cycles[:-0]` is `[]` while `cycles[-0:]` is the whole list, so nothing is
deleted then either.  Generic in the element type: the split looks only at
positions, never at cycle contents. -/
def retentionPlan {α : Type} (cycles : List α) (keepCycles : Nat) : List α × List α :=
  if cycles.length ≤ keepCycles then ([], cycles)
  else if keepCycles = 0 then ([], cycles)
  else (cycles.take (cycles.length - keepCycles), cycles.drop (cycles.length - keepCycles))

/-- Statistics dictionary returned by `cleanup_old_cycles` (the `errors`
list is omitted: in the model every deletion succeeds). -/
structure CleanupStats where
  totalCycles : Nat
  keptCycles : Nat
  deletedCycles : Nat
  deletedFiles : Nat
  freedBytes : Nat
deriving DecidableEq

/-- Delete the files of one condemned cycle: `get_all_files` is evaluated
once against the current file system, then each entry is checked for
existence, measured and unlinked in order.  Returns the new file system,
the number of files deleted and the bytes freed. -/
def deleteCycleFiles (fs : FS) (c : BackupCycle) : FS × Nat × Nat :=
  (getAllFiles fs c).foldl
    (fun acc e =>
      if fileExists acc.1 e.1 e.2 then
        (removeFile acc.1 e.1 e.2, acc.2.1 + 1, acc.2.2 + fileSize acc.1 e.1 e.2)
      else acc)
    (fs, 0, 0)

/-- `BackupManager.cleanup_old_cycles(dry_run)`: reconstruct the cycles,
split by the retention plan, then either only total up
`cycle.total_size_bytes` over the condemned cycles (dry run) or delete their
files cycle by cycle. -/
def cleanupOldCycles (fs : FS) (keepCycles : Nat) (dryRun : Bool) : FS × CleanupStats :=
  let cycles := getBackupCycles fs
  let plan := retentionPlan cycles keepCycles
  let base : CleanupStats :=
    { totalCycles := cycles.length, keptCycles := plan.2.length,
      deletedCycles := plan.1.length, deletedFiles := 0, freedBytes := 0 }
  if dryRun then
    (fs, { base with freedBytes := (plan.1.map fun c => c.totalSizeBytes).sum })
  else
    plan.1.foldl
      (fun acc c =>
        let del := deleteCycleFiles acc.1 c
        (del.1, { acc.2 with
                    deletedFiles := acc.2.deletedFiles + del.2.1,
                    freedBytes := acc.2.freedBytes + del.2.2 }))
      (fs, base)

/-! ### `BackupManager.get_disk_space_info` -/

/-- `DiskSpaceInfo` dataclass. -/
structure DiskSpaceInfo where
  totalBytes : Nat
  freeBytes : Nat
  usedBytes : Nat
  lastCycleSizeBytes : Nat
  requiredBytes : Nat
  hasEnoughSpace : Bool
deriving DecidableEq

/-- Python `int(x)` on a non-negative value: truncation toward zero. -/
def pyIntTrunc (q : ℚ) : Nat := (⌊q⌋).toNat

/-- `required_bytes = int(last_cycle_size * (1 + percent / 100))`, with the
50-GB fallback substituted whenever the computed value is 0. -/
def requiredWithReserve (lastCycleSize reservePercent : Nat) : Nat :=
  let req := pyIntTrunc ((lastCycleSize : ℚ) * (1 + (reservePercent : ℚ) / 100))
  if req = 0 then 50 * 1024 ^ 3 else req

/-- `BackupManager.get_disk_space_info`: the volume totals come from
`shutil.disk_usage` and are inputs here; the last cycle size is
`cycles[-1].total_size_bytes` (0 with no cycles). -/
def getDiskSpaceInfo (fs : FS) (totalBytes freeBytes usedBytes reservePercent : Nat) :
    DiskSpaceInfo :=
  let lastCycleSize :=
    match (getBackupCycles fs).getLast? with
    | some c => c.totalSizeBytes
    | none => 0
  let required := requiredWithReserve lastCycleSize reservePercent
  { totalBytes := totalBytes, freeBytes := freeBytes, usedBytes := usedBytes,
    lastCycleSizeBytes := lastCycleSize, requiredBytes := required,
    hasEnoughSpace := decide (required ≤ freeBytes) }

/-! ### `BackupManager` state machine -/

/-- `BackupType` enum. -/
inductive BackupType where
  | full
  | differential
deriving DecidableEq

/-- Python truthiness of an optional string field (`None` and `""` are
falsy), as used by `if not self.state.last_full_backup`. -/
def pyTruthy : Option String → Bool
  | none => false
  | some s => !(s == "")

/-- One entry of the persisted `backups` history list. -/
structure HistoryEntry where
  timestamp : Nat
  entryType : BackupType
  file : String
  success : Bool
deriving DecidableEq

/-- `BackupState` dataclass (the persisted `backup_state.json`). -/
structure BackupState where
  lastFullBackup : Option String
  lastFullHashFile : Option String
  differentialCount : Nat
  backups : List HistoryEntry
deriving DecidableEq

/-- `BackupManager.determine_backup_type`.  `fsHas` is `Path(...).exists()`
for the hash file recorded in the state. -/
def determineBackupType (fsHas : String → Bool) (maxDifferentials : Nat)
    (st : BackupState) : BackupType :=
  if pyTruthy st.lastFullBackup = false || pyTruthy st.lastFullHashFile = false then
    BackupType.full
  else if fsHas (st.lastFullHashFile.getD "") = false then
    BackupType.full
  else if maxDifferentials ≤ st.differentialCount then
    BackupType.full
  else
    BackupType.differential

/-- The parts of `BackupResult` relevant to the state machine.
`differentialNumber` copies `self.state.differential_count` *after* the
state update, as the source does. -/
structure BackupResultM where
  success : Bool
  backupType : BackupType
  imageFile : String
  hashFile : String
  exitCode : Int
  differentialNumber : Nat
deriving DecidableEq

/-- `BackupManager.run_backup` for a fixed backup type (the caller passes
`force_type or determine_backup_type()`).  `imagePath` and `hashPathNew` are
the freshly generated target names (`hashPathNew` is
`image_path.with_suffix(".hsh")`, used only by the full branch); `exec` is
the imaging-tool invocation returning its exit code; `now` the run
timestamp.  In the differential branch, `Path(self.state.last_full_hash_file)`
raises `TypeError` when the pointer is `None` — before the imaging tool is
invoked, so no result is built, no history entry appended and no state
saved: modelled by `none`. -/
def runBackup (st : BackupState) (backupType : BackupType)
    (imagePath hashPathNew : String) (exec : BackupType → Int) (now : Nat) :
    Option (BackupState × BackupResultM) :=
  match backupType with
  | BackupType.full =>
    let code := exec BackupType.full
    let stAfter :=
      if code = 0 then
        { st with lastFullBackup := some imagePath,
                  lastFullHashFile := some hashPathNew,
                  differentialCount := 0 }
      else st
    let entry : HistoryEntry :=
      { timestamp := now, entryType := BackupType.full,
        file := imagePath, success := code == 0 }
    some ({ stAfter with backups := stAfter.backups ++ [entry] },
      { success := code == 0, backupType := BackupType.full, imageFile := imagePath,
        hashFile := hashPathNew, exitCode := code,
        differentialNumber := stAfter.differentialCount })
  | BackupType.differential =>
    match st.lastFullHashFile with
    | none => none
    | some h =>
      let diffNum := st.differentialCount + 1
      let code := exec BackupType.differential
      let stAfter := if code = 0 then { st with differentialCount := diffNum } else st
      let entry : HistoryEntry :=
        { timestamp := now, entryType := BackupType.differential,
          file := imagePath, success := code == 0 }
      some ({ stAfter with backups := stAfter.backups ++ [entry] },
        { success := code == 0, backupType := BackupType.differential,
          imageFile := imagePath, hashFile := h, exitCode := code,
          differentialNumber := stAfter.differentialCount })

/-- Test harness for the decision sequence: starting from a fresh state and
an empty target, run `n` backups in which every attempt succeeds (exit code
0) and, per the imaging-tool contract, a successful full backup leaves both
the artifact and its companion hash file on disk.  Returns the set of files
written, the final state and the list of decisions taken. -/
def simulateRuns (maxDifferentials : Nat) : Nat → List String × BackupState × List BackupType
  | 0 => ([], { lastFullBackup := none, lastFullHashFile := none,
                differentialCount := 0, backups := [] }, [])
  | n + 1 =>
    let prev := simulateRuns maxDifferentials n
    let files := prev.1
    let st := prev.2.1
    let t := determineBackupType (fun p => files.contains p) maxDifferentials st
    let img := match t with
      | BackupType.full => "D_full.sna"
      | BackupType.differential => "D_diff.sna"
    match runBackup st t img "D_full.hsh" (fun _ => 0) n with
    | some res =>
      let files' := match t with
        | BackupType.full => "D_full.sna" :: "D_full.hsh" :: files
        | BackupType.differential => "D_diff.sna" :: files
      (files', res.1, prev.2.2 ++ [t])
    | none => (files, st, prev.2.2)

/-! ### `check_and_prepare_backup` and the `main` gate -/

/-- The mutable run environment: the backup directory plus the volume
counters reported by `shutil.disk_usage`.  Modelling assumption: unlinking
files increases the volume's free bytes by their total size. -/
structure World where
  fs : FS
  totalBytes : Nat
  freeBytes : Nat
  usedBytes : Nat
deriving DecidableEq

/-- `get_disk_space_info` against the current world. -/
def assessW (w : World) (reservePercent : Nat) : DiskSpaceInfo :=
  getDiskSpaceInfo w.fs w.totalBytes w.freeBytes w.usedBytes reservePercent

/-- `cleanup_old_cycles` against the current world. -/
def cleanupW (w : World) (keepCycles : Nat) (dryRun : Bool) : World × CleanupStats :=
  let res := cleanupOldCycles w.fs keepCycles dryRun
  if dryRun then ({ w with fs := res.1 }, res.2)
  else
    ({ w with fs := res.1,
              freeBytes := w.freeBytes + res.2.freedBytes,
              usedBytes := w.usedBytes - res.2.freedBytes }, res.2)

/-- `BackupManager.check_and_prepare_backup`: assess; if insufficient, run a
real (non-dry-run) cleanup and assess again; refuse if still insufficient.
Returns `(can_start, world afterwards)`. -/
def checkAndPrepareBackup (w : World) (keepCycles reservePercent : Nat) : Bool × World :=
  let info := assessW w reservePercent
  if info.hasEnoughSpace then (true, w)
  else
    let w' := (cleanupW w keepCycles false).1
    let info' := assessW w' reservePercent
    if info'.hasEnoughSpace then (true, w') else (false, w')

/-- The automatic-backup path of `main`: `check_and_prepare_backup`, and
only if it allows the start is `run_backup` (the sole site invoking the
imaging tool) executed; otherwise the process exits without imaging. -/
def mainBackupRun (w : World) (keepCycles reservePercent : Nat) (st : BackupState)
    (backupType : BackupType) (imagePath hashPathNew : String)
    (exec : BackupType → Int) (now : Nat) : Option (BackupState × BackupResultM) :=
  if (checkAndPrepareBackup w keepCycles reservePercent).1 then
    runBackup st backupType imagePath hashPathNew exec now
  else none

/-! ### Concrete fixtures used by witnesses and counterexamples -/

/-- Two full backups with unparseable stems (cycle timestamps fall back to
the mtimes 0 and 100) and one differential whose mtime ties with the later
full backup's timestamp. -/
def fsTie : FS :=
  { fullDir := [⟨"A_full_x_y.sna", 0, 1⟩, ⟨"B_full_x_y.sna", 100, 1⟩],
    diffDir := [⟨"A_diff_1_1_#01.sna", 100, 1⟩] }

/-- One full backup (10 bytes) with its companion hash file (5 bytes). -/
def fsDouble : FS :=
  { fullDir := [⟨"D_full_20260101_120000.sna", 72822196800, 10⟩,
                ⟨"D_full_20260101_120000.hsh", 72822196800, 5⟩],
    diffDir := [] }

/-- Two cycles: an old one with a companion file (10 + 5 bytes) and a newer
one without (7 bytes). -/
def fsCleanup : FS :=
  { fullDir := [⟨"D_full_20260101_120000.sna", 72822196800, 10⟩,
                ⟨"D_full_20260101_120000.hsh", 72822196800, 5⟩,
                ⟨"D_full_20260202_120000.sna", 72825048000, 7⟩],
    diffDir := [] }

/-- A single 100-GiB full backup and no companion. -/
def fsBig : FS :=
  { fullDir := [⟨"D_full_20260101_120000.sna", 72822196800, 100 * 1024 ^ 3⟩],
    diffDir := [] }

/-- A fresh target disk with no artifacts and no free space. -/
def worldEmpty : World := { fs := ⟨[], []⟩, totalBytes := 0, freeBytes := 0, usedBytes := 0 }

/-! ### Helper lemmas -/

/-- Unfolding of the differential-membership test into its logical form. -/
theorem diffBelongs_iff (fulls : List MFile) (fb : MFile) (ts : Nat) (d : MFile) :
    diffBelongs fulls fb ts d = true ↔
      ts ≤ d.mtime ∧ ∀ other ∈ fulls, other.name = fb.name ∨
        (ts < other.mtime → d.mtime < other.mtime) := by
  simp [diffBelongs, List.all_eq_true]
  intro _
  constructor
  · intro h2 o ho
    rcases h2 o ho with h | h
    · exact Or.inl h
    · exact Or.inr (fun hlt => by omega)
  · intro h2 o ho
    rcases h2 o ho with h | h
    · exact Or.inl h
    · by_cases hlt : ts < o.mtime
      · exact Or.inr (Or.inr (h hlt))
      · exact Or.inr (Or.inl (by omega))

/-- Every nonempty list has an element whose key is maximal. -/
theorem exists_max_key {α : Type} (key : α → Nat) :
    ∀ (l : List α), l ≠ [] → ∃ m ∈ l, ∀ x ∈ l, key x ≤ key m := by
  intro l
  induction l with
  | nil => exact fun h => absurd rfl h
  | cons a t ih =>
    intro _
    match t, ih with
    | [], _ => exact ⟨a, List.mem_singleton_self a, by simp⟩
    | b :: t', ih =>
      obtain ⟨m, hm, hmax⟩ := ih (by simp)
      by_cases h : key a ≤ key m
      · refine ⟨m, List.mem_cons_of_mem a hm, fun x hx => ?_⟩
        rcases List.mem_cons.1 hx with rfl | hx
        · exact h
        · exact hmax x hx
      · refine ⟨a, List.mem_cons_self a _, fun x hx => ?_⟩
        rcases List.mem_cons.1 hx with rfl | hx
        · exact Nat.le_refl _
        · exact Nat.le_trans (hmax x hx) (Nat.le_of_not_le h)

/-- Sorting by name does not change membership. -/
theorem mem_sortByName {l : List MFile} {f : MFile} : f ∈ sortByName l ↔ f ∈ l :=
  List.mem_insertionSort _

/-- Membership in the scanned full-artifact list. -/
theorem mem_fullArtifacts {fs : FS} {f : MFile} :
    f ∈ fullArtifacts fs ↔ f ∈ fs.fullDir ∧ isFullArtifact f.name = true := by
  rw [fullArtifacts, mem_sortByName, List.mem_filter]

/-- Membership in the scanned differential-artifact list. -/
theorem mem_diffArtifacts {fs : FS} {f : MFile} :
    f ∈ diffArtifacts fs ↔ f ∈ fs.diffDir ∧ isDiffArtifact f.name = true := by
  rw [diffArtifacts, mem_sortByName, List.mem_filter]

/-- The reconstructed cycle list contains exactly the cycles built from the
scanned full artifacts. -/
theorem mem_getBackupCycles {fs : FS} {c : BackupCycle} :
    c ∈ getBackupCycles fs ↔
      ∃ fb, fb ∈ fullArtifacts fs ∧ c = mkCycle fs (fullArtifacts fs) fb := by
  rw [getBackupCycles, List.mem_insertionSort, List.mem_map]
  simp [eq_comm]

/-- Field values of a constructed cycle. -/
theorem mkCycle_timestamp (fs : FS) (fulls : List MFile) (fb : MFile) :
    (mkCycle fs fulls fb).timestamp = cycleTimestamp fb := rfl

/-- The cycle record carries its full backup's file name. -/
theorem mkCycle_fullBackup (fs : FS) (fulls : List MFile) (fb : MFile) :
    (mkCycle fs fulls fb).fullBackup = fb.name := rfl

/-- The differentials of a constructed cycle are the names of the scanned
differential artifacts passing the membership test. -/
theorem mkCycle_differentials (fs : FS) (fulls : List MFile) (fb : MFile) :
    (mkCycle fs fulls fb).differentials =
      ((diffArtifacts fs).filter fun d =>
        diffBelongs fulls fb (cycleTimestamp fb) d).map (fun d => d.name) := rfl

/-- Exact-arithmetic form of the truncated reserve computation. -/
theorem pyIntTrunc_reserve (L r : Nat) :
    pyIntTrunc ((L : ℚ) * (1 + (r : ℚ) / 100)) = L * (100 + r) / 100 := by
  have h : ((L : ℚ) * (1 + (r : ℚ) / 100)) = ((L * (100 + r) : ℕ) : ℚ) / ((100 : ℕ) : ℚ) := by
    push_cast; ring
  rw [pyIntTrunc, h, Int.floor_toNat, Nat.floor_div_nat, Nat.floor_natCast]

/-- `requiredWithReserve` in terms of natural division. -/
theorem requiredWithReserve_eq (L r : Nat) :
    requiredWithReserve L r =
      if L * (100 + r) / 100 = 0 then 50 * 1024 ^ 3 else L * (100 + r) / 100 := by
  simp only [requiredWithReserve, pyIntTrunc_reserve]

/-! ### Claim C1 -/

/-- C1 (amended): under the normal-operation assumptions that file names are
unique per directory, every full artifact's mtime coincides with its cycle
timestamp and cycle timestamps are pairwise distinct, cycle reconstruction
assigns every differential whose mtime is at least some full backup's cycle
timestamp to exactly one cycle, namely the cycle of the full backup with the
greatest cycle timestamp that is ≤ the differential's mtime.  In particular a
differential whose mtime equals a later full backup's timestamp is assigned
to that **later** full backup (the original claim's tie direction is
reversed by the strict inequality `timestamp < other_time` in the source). -/
theorem claim1_differential_assignment (fs : FS)
    (hnodupFull : (fs.fullDir.map fun f => f.name).Nodup)
    (hnodupDiff : (fs.diffDir.map fun f => f.name).Nodup)
    (hmtime : ∀ f ∈ fs.fullDir, isFullArtifact f.name = true → f.mtime = cycleTimestamp f)
    (hts : ((fs.fullDir.filter fun f => isFullArtifact f.name).map cycleTimestamp).Nodup)
    (d : MFile) (hd : d ∈ fs.diffDir) (hda : isDiffArtifact d.name = true)
    (f0 : MFile) (hf0 : f0 ∈ fs.fullDir) (hf0a : isFullArtifact f0.name = true)
    (hf0le : cycleTimestamp f0 ≤ d.mtime) :
    ∃ c ∈ getBackupCycles fs,
      d.name ∈ c.differentials ∧ c.timestamp ≤ d.mtime ∧
      (∀ f ∈ fs.fullDir, isFullArtifact f.name = true →
        cycleTimestamp f ≤ d.mtime → cycleTimestamp f ≤ c.timestamp) ∧
      ∀ c' ∈ getBackupCycles fs, d.name ∈ c'.differentials → c' = c := by
  classical
  have hf0LA : f0 ∈ fullArtifacts fs := mem_fullArtifacts.2 ⟨hf0, hf0a⟩
  have hf0S : f0 ∈ (fullArtifacts fs).filter (fun f => decide (cycleTimestamp f ≤ d.mtime)) :=
    List.mem_filter.2 ⟨hf0LA, by simpa using hf0le⟩
  obtain ⟨fb, hfbS, hfbmax⟩ :=
    exists_max_key cycleTimestamp _ (List.ne_nil_of_mem hf0S)
  have hfbLA : fb ∈ fullArtifacts fs := (List.mem_filter.1 hfbS).1
  have hfble : cycleTimestamp fb ≤ d.mtime := by
    have := (List.mem_filter.1 hfbS).2
    simpa using this
  have hmaxLA : ∀ f ∈ fullArtifacts fs, cycleTimestamp f ≤ d.mtime →
      cycleTimestamp f ≤ cycleTimestamp fb := by
    intro f hf hfle
    exact hfbmax f (List.mem_filter.2 ⟨hf, by simpa using hfle⟩)
  have hmt' : ∀ f ∈ fullArtifacts fs, f.mtime = cycleTimestamp f := by
    intro f hf
    obtain ⟨hf1, hf2⟩ := mem_fullArtifacts.1 hf
    exact hmtime f hf1 hf2
  have hnameinj : ∀ {x y : MFile}, x ∈ fs.fullDir → y ∈ fs.fullDir → x.name = y.name → x = y :=
    fun hx hy hxy => List.inj_on_of_nodup_map hnodupFull hx hy hxy
  have htsinj : ∀ {x y : MFile}, x ∈ fullArtifacts fs → y ∈ fullArtifacts fs →
      cycleTimestamp x = cycleTimestamp y → x = y := by
    intro x y hx hy hxy
    obtain ⟨hx1, hx2⟩ := mem_fullArtifacts.1 hx
    obtain ⟨hy1, hy2⟩ := mem_fullArtifacts.1 hy
    exact List.inj_on_of_nodup_map hts
      (List.mem_filter.2 ⟨hx1, hx2⟩) (List.mem_filter.2 ⟨hy1, hy2⟩) hxy
  have hbel : diffBelongs (fullArtifacts fs) fb (cycleTimestamp fb) d = true := by
    rw [diffBelongs_iff]
    refine ⟨hfble, fun other ho => ?_⟩
    by_cases hne : other.name = fb.name
    · exact Or.inl hne
    · right
      intro hlt
      by_contra hcon
      push_neg at hcon
      have hts_o := hmt' other ho
      have hle_o : cycleTimestamp other ≤ cycleTimestamp fb :=
        hmaxLA other ho (by omega)
      omega
  refine ⟨mkCycle fs (fullArtifacts fs) fb,
    mem_getBackupCycles.2 ⟨fb, hfbLA, rfl⟩, ?_, ?_, ?_, ?_⟩
  · rw [mkCycle_differentials]
    exact List.mem_map.2 ⟨d, List.mem_filter.2 ⟨mem_diffArtifacts.2 ⟨hd, hda⟩, hbel⟩, rfl⟩
  · rw [mkCycle_timestamp]
    exact hfble
  · intro f hf hfa hfle
    rw [mkCycle_timestamp]
    exact hmaxLA f (mem_fullArtifacts.2 ⟨hf, hfa⟩) hfle
  · intro c' hc' hdmem
    obtain ⟨fb', hfb'LA, rfl⟩ := mem_getBackupCycles.1 hc'
    rw [mkCycle_differentials] at hdmem
    obtain ⟨d', hd'flt, hd'name⟩ := List.mem_map.1 hdmem
    obtain ⟨hd'DA, hd'bel⟩ := List.mem_filter.1 hd'flt
    obtain ⟨hd'dir, hd'art⟩ := mem_diffArtifacts.1 hd'DA
    have hd'd : d' = d := List.inj_on_of_nodup_map hnodupDiff hd'dir hd hd'name
    rw [hd'd] at hd'bel
    obtain ⟨hts', hall⟩ := (diffBelongs_iff _ _ _ _).1 hd'bel
    have hfb'fb : fb' = fb := by
      by_cases hnm : fb'.name = fb.name
      · obtain ⟨hx1, _⟩ := mem_fullArtifacts.1 hfb'LA
        obtain ⟨hy1, _⟩ := mem_fullArtifacts.1 hfbLA
        exact hnameinj hx1 hy1 hnm
      · exfalso
        rcases hall fb hfbLA with h | h
        · exact hnm h.symm
        · have hfbmt : fb.mtime = cycleTimestamp fb := hmt' fb hfbLA
          have hle' : cycleTimestamp fb' ≤ cycleTimestamp fb := hmaxLA fb' hfb'LA hts'
          have hne' : cycleTimestamp fb' ≠ cycleTimestamp fb := fun he =>
            hnm (congrArg MFile.name (htsinj hfb'LA hfbLA he))
          have hd_lt : d.mtime < fb.mtime := h (by omega)
          omega
    rw [hfb'fb]

/-- C1 counterexample: with full backups at timestamps 0 and 100 (mtimes
equal to the timestamps) and a differential whose mtime is exactly 100, the
differential lands in the **later** cycle (timestamp 100) and not in the
earlier one — refuting the claim's tie rule "assigned to the earlier
(owning) full backup, never the later one". -/
theorem claim1_tie_counterexample :
    ∃ c ∈ getBackupCycles fsTie, c.timestamp = 100 ∧
      "A_diff_1_1_#01.sna" ∈ c.differentials ∧
      ∀ c' ∈ getBackupCycles fsTie, c'.timestamp = 0 →
        "A_diff_1_1_#01.sna" ∉ c'.differentials := by decide

/-- C1 witness: the amended theorem applied to the concrete tie scenario. -/
theorem claim1_differential_assignment_witness :
    ∃ c ∈ getBackupCycles fsTie,
      "A_diff_1_1_#01.sna" ∈ c.differentials ∧ c.timestamp ≤ 100 ∧
      (∀ f ∈ fsTie.fullDir, isFullArtifact f.name = true →
        cycleTimestamp f ≤ 100 → cycleTimestamp f ≤ c.timestamp) ∧
      ∀ c' ∈ getBackupCycles fsTie, "A_diff_1_1_#01.sna" ∈ c'.differentials → c' = c :=
  claim1_differential_assignment fsTie (by decide) (by decide) (by decide) (by decide)
    ⟨"A_diff_1_1_#01.sna", 100, 1⟩ (by decide) (by decide)
    ⟨"A_full_x_y.sna", 0, 1⟩ (by decide) (by decide) (by decide)

/-! ### Claim C2 -/

/-- C2: the backup-type decision is FULL exactly when a last-full pointer is
unset (falsy), the companion file no longer exists, or the differential
chain is exhausted; otherwise DIFFERENTIAL with the state's companion file
as base and sequence number `differentialCount + 1`; and with
`maxDifferentials = 3` and every attempt succeeding the decision sequence
from a fresh state is FULL, DIFF, DIFF, DIFF, FULL, DIFF. -/
theorem claim2_backup_type_decision (fsHas : String → Bool) (maxD : Nat)
    (st : BackupState) (img hsh h : String) (exec : BackupType → Int) (now : Nat) :
    (determineBackupType fsHas maxD st = BackupType.full ↔
      pyTruthy st.lastFullBackup = false ∨ pyTruthy st.lastFullHashFile = false ∨
      fsHas (st.lastFullHashFile.getD "") = false ∨ maxD ≤ st.differentialCount) ∧
    (st.lastFullHashFile = some h → exec BackupType.differential = 0 →
      (runBackup st BackupType.differential img hsh exec now).map
        (fun p => (p.1.differentialCount, p.2.hashFile)) =
        some (st.differentialCount + 1, h)) ∧
    (simulateRuns 3 6).2.2 =
      [BackupType.full, BackupType.differential, BackupType.differential,
       BackupType.differential, BackupType.full, BackupType.differential] := by
  refine ⟨?_, ?_, ?_⟩
  · cases hA : pyTruthy st.lastFullBackup <;>
      cases hB : pyTruthy st.lastFullHashFile <;>
      cases hC : fsHas (st.lastFullHashFile.getD "") <;>
      by_cases hD : maxD ≤ st.differentialCount <;>
      simp [determineBackupType, hA, hB, hC, hD]
  · intro hh hc
    simp [runBackup, hh, hc]
  · decide

/-- C2 witness: a successful forced differential from a state with one prior
full backup advances to sequence number 1 against the recorded companion. -/
theorem claim2_backup_type_decision_witness :
    (runBackup ⟨some "F.sna", some "F.hsh", 0, []⟩ BackupType.differential
        "d.sna" "x" (fun _ => 0) 4).map
      (fun p => (p.1.differentialCount, p.2.hashFile)) = some (1, "F.hsh") :=
  (claim2_backup_type_decision (fun _ => true) 3 ⟨some "F.sna", some "F.hsh", 0, []⟩
    "d.sna" "x" "F.hsh" (fun _ => 0) 4).2.1 rfl rfl

/-! ### Claim C3 -/

/-- C3 (amended): for every keep-count `K ≥ 1` the retention plan keeps the
`min(N, K)` most recent cycles and deletes the `N - K` oldest ones (so
nothing when `N ≤ K`), with deleted ++ kept equal to the original
oldest-first list; the split is positional, hence independent of cycle
contents (the element type is arbitrary).  For `K = 0` the claim fails, see
the counterexample. -/
theorem claim3_retention_counts {α : Type} (cycles : List α) (keepCycles : Nat)
    (hk : 1 ≤ keepCycles) :
    (retentionPlan cycles keepCycles).2.length = min cycles.length keepCycles ∧
    (retentionPlan cycles keepCycles).1.length = cycles.length - keepCycles ∧
    (retentionPlan cycles keepCycles).1.length + (retentionPlan cycles keepCycles).2.length
      = cycles.length ∧
    (retentionPlan cycles keepCycles).1 ++ (retentionPlan cycles keepCycles).2 = cycles ∧
    (cycles.length ≤ keepCycles → (retentionPlan cycles keepCycles).1 = []) := by
  by_cases h1 : cycles.length ≤ keepCycles
  · have hplan : retentionPlan cycles keepCycles = ([], cycles) := by
      simp [retentionPlan, h1]
    rw [hplan]
    refine ⟨?_, ?_, ?_, rfl, fun _ => rfl⟩
    · show cycles.length = min cycles.length keepCycles
      omega
    · show (0 : Nat) = cycles.length - keepCycles
      omega
    · show 0 + cycles.length = cycles.length
      omega
  · have h2 : ¬(keepCycles = 0) := by omega
    have hplan : retentionPlan cycles keepCycles =
        (cycles.take (cycles.length - keepCycles), cycles.drop (cycles.length - keepCycles)) := by
      simp [retentionPlan, h1, h2]
    rw [hplan]
    refine ⟨?_, ?_, ?_, List.take_append_drop _ _, fun hcon => absurd hcon h1⟩
    · rw [List.length_drop]
      omega
    · rw [List.length_take]
      omega
    · rw [List.length_take, List.length_drop]
      omega

/-- C3 counterexample: with one cycle and keep-count 0 the claim demands
`max(0, 1 - 0) = 1` deletion, but Python's `cycles[:-0]` is empty, so the
plan deletes nothing and keeps everything. -/
theorem claim3_keep_zero_counterexample :
    (retentionPlan [(0 : Nat)] 0).1.length = 0 ∧
    (retentionPlan [(0 : Nat)] 0).2.length = 1 := by decide

/-- C3 witness: three cycles with keep-count 2 keep `min 3 2` cycles. -/
theorem claim3_retention_counts_witness :
    (retentionPlan [(1 : Nat), 2, 3] 2).2.length = min 3 2 :=
  (claim3_retention_counts [1, 2, 3] 2 (by decide)).1

/-! ### Claim C4 -/

/-- C4: on a failed attempt (non-zero exit code, timeouts report −1) the
pointers and differential count are unchanged and a failure entry is still
appended to the history; a successful FULL resets the count to 0 and
rewrites both last-full pointers; a successful DIFFERENTIAL sets the count
to the new sequence number. -/
theorem claim4_transition_effects (st : BackupState) (img hsh h : String)
    (exec : BackupType → Int) (now : Nat) :
    (exec BackupType.full ≠ 0 →
      runBackup st BackupType.full img hsh exec now =
        some ({ st with backups := st.backups ++ [⟨now, BackupType.full, img, false⟩] },
          ⟨false, BackupType.full, img, hsh, exec BackupType.full, st.differentialCount⟩)) ∧
    (st.lastFullHashFile = some h → exec BackupType.differential ≠ 0 →
      runBackup st BackupType.differential img hsh exec now =
        some ({ st with backups := st.backups ++ [⟨now, BackupType.differential, img, false⟩] },
          ⟨false, BackupType.differential, img, h, exec BackupType.differential,
            st.differentialCount⟩)) ∧
    (exec BackupType.full = 0 →
      runBackup st BackupType.full img hsh exec now =
        some ({ lastFullBackup := some img
                lastFullHashFile := some hsh
                differentialCount := 0
                backups := st.backups ++ [⟨now, BackupType.full, img, true⟩] },
          ⟨true, BackupType.full, img, hsh, 0, 0⟩)) ∧
    (st.lastFullHashFile = some h → exec BackupType.differential = 0 →
      runBackup st BackupType.differential img hsh exec now =
        some ({ st with
                  differentialCount := st.differentialCount + 1
                  backups := st.backups ++ [⟨now, BackupType.differential, img, true⟩] },
          ⟨true, BackupType.differential, img, h, 0, st.differentialCount + 1⟩)) := by
  refine ⟨?_, ?_, ?_, ?_⟩
  · intro hc
    simp [runBackup, hc]
  · intro hh hc
    simp [runBackup, hh, hc]
  · intro hc
    simp [runBackup, hc]
  · intro hh hc
    simp [runBackup, hh, hc]

/-- C4 witness: a failed full backup (exit code 5) leaves the pointers and
count untouched and appends a failed history entry. -/
theorem claim4_transition_effects_witness :
    runBackup ⟨some "F.sna", some "F.hsh", 1, []⟩ BackupType.full "i.sna" "i.hsh"
        (fun _ => 5) 9 =
      some (⟨some "F.sna", some "F.hsh", 1, [⟨9, BackupType.full, "i.sna", false⟩]⟩,
        ⟨false, BackupType.full, "i.sna", "i.hsh", 5, 1⟩) :=
  (claim4_transition_effects ⟨some "F.sna", some "F.hsh", 1, []⟩ "i.sna" "i.hsh" "x"
    (fun _ => 5) 9).1 (by decide)

/-! ### Claim C5 -/

/-- C5 (amended): the space assessment computes
`requiredBytes = ⌊lastCycleSize × (1 + reserve/100)⌋` (Python `int()`
truncates, it does not take the ceiling), substitutes the 50-GiB floor
whenever that value is 0 (in particular when there is no prior cycle), and
reports sufficiency exactly when `freeBytes ≥ requiredBytes`; the concrete
example (100 GiB cycle, 50 % reserve, 140 GiB free) gives 150 GiB required
and insufficiency as claimed. -/
theorem claim5_space_requirement (fs : FS) (totalBytes freeBytes usedBytes r : Nat) :
    ((getDiskSpaceInfo fs totalBytes freeBytes usedBytes r).requiredBytes =
      if (getDiskSpaceInfo fs totalBytes freeBytes usedBytes r).lastCycleSizeBytes
          * (100 + r) / 100 = 0
      then 50 * 1024 ^ 3
      else (getDiskSpaceInfo fs totalBytes freeBytes usedBytes r).lastCycleSizeBytes
          * (100 + r) / 100) ∧
    (getBackupCycles fs = [] →
      (getDiskSpaceInfo fs totalBytes freeBytes usedBytes r).requiredBytes = 50 * 1024 ^ 3) ∧
    ((getDiskSpaceInfo fs totalBytes freeBytes usedBytes r).hasEnoughSpace = true ↔
      (getDiskSpaceInfo fs totalBytes freeBytes usedBytes r).requiredBytes ≤ freeBytes) ∧
    ((getDiskSpaceInfo fsBig (200 * 1024 ^ 3) (140 * 1024 ^ 3) (60 * 1024 ^ 3) 50).requiredBytes
        = 150 * 1024 ^ 3 ∧
      (getDiskSpaceInfo fsBig (200 * 1024 ^ 3) (140 * 1024 ^ 3) (60 * 1024 ^ 3) 50).hasEnoughSpace
        = false) := by
  refine ⟨?_, ?_, ?_, ?_, ?_⟩
  · simp only [getDiskSpaceInfo]
    exact requiredWithReserve_eq _ r
  · intro hnil
    simp only [getDiskSpaceInfo, hnil, List.getLast?_nil]
    rw [requiredWithReserve_eq]
    norm_num
  · simp only [getDiskSpaceInfo, decide_eq_true_eq]
  · have hlast : (getBackupCycles fsBig).getLast? =
        some ⟨"D_full_20260101_120000.sna", none, [], 72822196800, 100 * 1024 ^ 3⟩ := by decide
    simp only [getDiskSpaceInfo, hlast]
    rw [requiredWithReserve_eq]
    norm_num
  · have hlast : (getBackupCycles fsBig).getLast? =
        some ⟨"D_full_20260101_120000.sna", none, [], 72822196800, 100 * 1024 ^ 3⟩ := by decide
    simp only [getDiskSpaceInfo, hlast]
    rw [requiredWithReserve_eq]
    norm_num

/-- C5 counterexample: for a 1-byte last cycle with 50 % reserve the source
computes `int(1 × 1.5) = 1`, whereas the claimed ceiling is 2 — the
computation truncates, it does not round up. -/
theorem claim5_truncation_counterexample :
    requiredWithReserve 1 50 = 1 ∧
    Int.toNat ⌈(1 : ℚ) * (1 + (50 : ℚ) / 100)⌉ = 2 := by
  constructor
  · rw [requiredWithReserve_eq]
    norm_num
  · have h : ((1 : ℚ) * (1 + (50 : ℚ) / 100)) = 3 / 2 := by norm_num
    rw [h]
    have h2 : ⌈(3 / 2 : ℚ)⌉ = 2 := by
      rw [Int.ceil_eq_iff]
      constructor <;> norm_num
    rw [h2]
    rfl

/-- C5 witness: on an empty target (no prior cycle) the 50-GiB floor is
substituted. -/
theorem claim5_space_requirement_witness :
    (getDiskSpaceInfo ⟨[], []⟩ 0 0 0 50).requiredBytes = 50 * 1024 ^ 3 :=
  (claim5_space_requirement ⟨[], []⟩ 0 0 0 50).2.1 rfl

/-! ### Claim C6 -/

/-- C6: when the initial assessment reports insufficient space, a real
(non-dry-run) cleanup is executed and space is re-assessed against the
cleaned world; if still insufficient, preparation reports that the backup
cannot start and the main run never invokes the imaging tool (the outcome is
`none` for every imaging oracle). -/
theorem claim6_space_gate (w : World) (keep r : Nat)
    (h1 : (assessW w r).hasEnoughSpace = false) :
    (checkAndPrepareBackup w keep r).2 = (cleanupW w keep false).1 ∧
    ((assessW (cleanupW w keep false).1 r).hasEnoughSpace = false →
      (checkAndPrepareBackup w keep r).1 = false ∧
      ∀ (st : BackupState) (bt : BackupType) (img hsh : String)
        (exec : BackupType → Int) (now : Nat),
        mainBackupRun w keep r st bt img hsh exec now = none) := by
  have hstep : checkAndPrepareBackup w keep r =
      (if (assessW (cleanupW w keep false).1 r).hasEnoughSpace then
        (true, (cleanupW w keep false).1) else (false, (cleanupW w keep false).1)) := by
    simp [checkAndPrepareBackup, h1]
  constructor
  · rw [hstep]
    split <;> rfl
  · intro h2
    have hcheck : checkAndPrepareBackup w keep r = (false, (cleanupW w keep false).1) := by
      rw [hstep, h2]
      simp
    refine ⟨by rw [hcheck], fun st bt img hsh exec now => ?_⟩
    simp [mainBackupRun, hcheck]

/-- C6 witness: on an empty, full disk the assessment is insufficient both
before and after cleanup, so the gated main run yields `none`. -/
theorem claim6_space_gate_witness :
    mainBackupRun worldEmpty 3 50 ⟨none, none, 0, []⟩ BackupType.full
      "i.sna" "i.hsh" (fun _ => 0) 0 = none := by
  have hW : (cleanupW worldEmpty 3 false).1 = worldEmpty := by decide
  have hcyc : getBackupCycles (⟨[], []⟩ : FS) = [] := rfl
  have h1 : (assessW worldEmpty 50).hasEnoughSpace = false := by
    simp only [assessW, getDiskSpaceInfo, worldEmpty, hcyc, List.getLast?_nil,
      requiredWithReserve_eq]
    norm_num
  exact ((claim6_space_gate worldEmpty 3 50 h1).2 (by rw [hW]; exact h1)).2 _ _ _ _ _ _

/-! ### Claim C7 -/

/-- C7 (code bug): dry-run cleanup performs no file-system mutation, but its
reported freed-bytes total (20: the cycle's `total_size_bytes`, which counts
the companion hash file twice) differs from what a real cleanup actually
frees (15: each file deleted once).  Fixture: condemned cycle = full backup
of 10 bytes plus companion of 5 bytes. -/
theorem claim7_dry_run_mismatch :
    (cleanupOldCycles fsCleanup 1 true).1 = fsCleanup ∧
    (cleanupOldCycles fsCleanup 1 true).2.freedBytes = 20 ∧
    (cleanupOldCycles fsCleanup 1 false).2.freedBytes = 15 := by decide

/-! ### Claim C8 -/

/-- C8 (code bug): a cycle consisting of a 10-byte full backup and its
5-byte companion is reported with `total_size_bytes = 20`, not the claimed
15: the companion matches the stem glob in `get_all_files` and is then
appended a second time, so it is counted twice. -/
theorem claim8_companion_double_count :
    (getBackupCycles fsDouble).map (fun c => c.totalSizeBytes) = [20] ∧
    (fsDouble.fullDir.map fun f => f.size).sum = 15 := by decide

/-! ### Claim C9 -/

/-- C9: each reconstructed cycle carries the cycle timestamp of its full
artifact — the filename-embedded timestamp when the name parses, the file's
mtime otherwise — and the resulting cycle list is sorted ascending by that
timestamp. -/
theorem claim9_timestamp_sorted (fs : FS) :
    List.Sorted (fun a b : BackupCycle => a.timestamp ≤ b.timestamp) (getBackupCycles fs) ∧
    (∀ c ∈ getBackupCycles fs, ∃ fb, fb ∈ fs.fullDir ∧ isFullArtifact fb.name = true ∧
      c.fullBackup = fb.name ∧ c.timestamp = cycleTimestamp fb) ∧
    (∀ f : MFile, ∀ t, nameTimestamp f.name = some t → cycleTimestamp f = t) ∧
    (∀ f : MFile, nameTimestamp f.name = none → cycleTimestamp f = f.mtime) := by
  refine ⟨?_, ?_, ?_, ?_⟩
  · rw [getBackupCycles]
    haveI : IsTotal BackupCycle (fun a b => a.timestamp ≤ b.timestamp) :=
      ⟨fun a b => Nat.le_total a.timestamp b.timestamp⟩
    haveI : IsTrans BackupCycle (fun a b => a.timestamp ≤ b.timestamp) :=
      ⟨fun a b c hab hbc => Nat.le_trans hab hbc⟩
    exact List.sorted_insertionSort _ _
  · intro c hc
    obtain ⟨fb, hfbLA, rfl⟩ := mem_getBackupCycles.1 hc
    obtain ⟨hdir, hart⟩ := mem_fullArtifacts.1 hfbLA
    exact ⟨fb, hdir, hart, rfl, rfl⟩
  · intro f t ht
    simp [cycleTimestamp, ht]
  · intro f ht
    simp [cycleTimestamp, ht]

/-- C9 witness: the single cycle reconstructed from `fsDouble` comes from
its full artifact with the parsed timestamp. -/
theorem claim9_timestamp_sorted_witness :
    ∃ fb, fb ∈ fsDouble.fullDir ∧ isFullArtifact fb.name = true ∧
      (⟨"D_full_20260101_120000.sna", some "D_full_20260101_120000.hsh", [],
        72822196800, 20⟩ : BackupCycle).fullBackup = fb.name ∧
      (⟨"D_full_20260101_120000.sna", some "D_full_20260101_120000.hsh", [],
        72822196800, 20⟩ : BackupCycle).timestamp = cycleTimestamp fb :=
  (claim9_timestamp_sorted fsDouble).2.1 _ (by decide)

/-! ### Claim C10 -/

/-- C10: with the last-full-companion pointer unset, a run forced to
DIFFERENTIAL aborts (the `TypeError` from `Path(None)`) before the imaging
tool is consulted — the outcome is `none` for every imaging oracle, so no
result record, no history entry and no state write occur. -/
theorem claim10_forced_differential_no_hash (st : BackupState) (img hsh : String)
    (exec : BackupType → Int) (now : Nat) (h : st.lastFullHashFile = none) :
    runBackup st BackupType.differential img hsh exec now = none := by
  simp [runBackup, h]

/-- C10 witness: a state with a last-full pointer but no companion pointer. -/
theorem claim10_forced_differential_no_hash_witness :
    runBackup ⟨some "F.sna", none, 2, []⟩ BackupType.differential
      "d.sna" "d.hsh" (fun _ => 7) 5 = none :=
  claim10_forced_differential_no_hash _ _ _ _ _ rfl

end SnapControl
